import Mathlib

/-!
Verification development for the F1TrackDownloader entity-resolution pipeline.

Shallow embedding of the Python sources:
  * `f1_downloader/models.py`   — `Circuit`, `CacheEntry`
  * `f1_downloader/cache.py`    — `CircuitCache` (`get`, `set`, `update_version`, `save`)
  * `f1_downloader/utils.py`    — `atomic_write`
  * `f1_downloader/services.py` — `search_osm_id`, `element_to_geojson`
  * `f1_downloader/clients/overpass.py` — `OverpassClient.query`, `_circuit_score`
  * `f1_downloader/clients/wikidata.py` — `WikidataClient.get_p402_batch`

JSON values are modelled by the inductive `JVal`; Python dictionaries by
association lists with first-occurrence lookup (`assocGet`) and in-place
update (`assocSet`: Python dicts preserve insertion order, update existing
keys in place and append new keys at the end).
-/

namespace F1

/-- JSON-like value, the payload type of all dictionaries handled by the code. -/
inductive JVal where
  | jnull
  | jbool (b : Bool)
  | jint (n : Int)
  | jstr (s : String)
  | jarr (items : List JVal)
  | jobj (fields : List (String × JVal))
deriving Repr

/-- A Python dictionary with string keys and JSON values. -/
abbrev JDict := List (String × JVal)

/-- Python dictionary read `d.get(k)` / `d[k]`: value at the first
(and, for dicts, only) occurrence of the key. -/
def assocGet {β : Type} : List (String × β) → String → Option β
  | [], _ => none
  | (k', v') :: rest, k => if k' = k then some v' else assocGet rest k

/-- Python dictionary assignment `d[k] = v`: update the key in place when
present, append it at the end otherwise (insertion order is preserved). -/
def assocSet {β : Type} : List (String × β) → String → β → List (String × β)
  | [], k, v => [(k, v)]
  | (k', v') :: rest, k, v =>
      if k' = k then (k, v) :: rest else (k', v') :: assocSet rest k v

theorem assocGet_assocSet_self {β : Type} (l : List (String × β)) (k : String) (v : β) :
    assocGet (assocSet l k v) k = some v := by
  induction l with
  | nil => simp [assocSet, assocGet]
  | cons p rest ih =>
    obtain ⟨k', v'⟩ := p
    by_cases h : k' = k
    · simp [assocSet, assocGet, h]
    · simp [assocSet, assocGet, h, ih]

theorem assocGet_assocSet_other {β : Type} (l : List (String × β)) (k q : String) (v : β)
    (hne : k ≠ q) : assocGet (assocSet l k v) q = assocGet l q := by
  induction l with
  | nil => simp [assocSet, assocGet, hne]
  | cons p rest ih =>
    obtain ⟨k', v'⟩ := p
    by_cases h : k' = k
    · subst h
      simp [assocSet, assocGet, hne]
    · by_cases hq : k' = q
      · subst hq
        simp [assocSet, assocGet, h]
      · simp [assocSet, assocGet, h, hq, ih]

/-- Python truthiness of a value fetched from a dictionary
(`None`/missing, `False`, `0`, `""` and empty containers are falsy). -/
def truthy : Option JVal → Bool
  | none => false
  | some .jnull => false
  | some (.jbool b) => b
  | some (.jint n) => n != 0
  | some (.jstr s) => s != ""
  | some (.jarr items) => !items.isEmpty
  | some (.jobj fields) => !fields.isEmpty

/-- Python truthiness of an optional string (`None` and `""` are falsy). -/
def truthyStr : Option String → Bool
  | none => false
  | some s => s != ""

/-- Python `x or d` on an optional string: falsy values fall back to `d`. -/
def strOr (o : Option String) (d : String) : String :=
  match o with
  | none => d
  | some s => if s = "" then d else s

/-! ## models.py: `CacheEntry` -/

/-- `models.CacheEntry`: a single circuit entry in the persistent cache
(the spec's `ResolutionRecord`). `verified_at` carries the timestamp string;
`datetime.now()` is passed explicitly by the callers of the embedding. -/
structure CacheEntry where
  osm_id : Option Int
  osm_type : Option String := none
  wikidata_id : Option String := none
  search_method : Option String := none
  search_name : Option String := none
  verified_at : String := ""
  manual : Bool := false
  comment : Option String := none
  osm_version : Option Int := none
deriving Repr, DecidableEq

/-- Encoding of an optional integer field as a JSON value. -/
def optIntJ : Option Int → JVal
  | none => .jnull
  | some n => .jint n

/-- Encoding of an optional string field as a JSON value. -/
def optStrJ : Option String → JVal
  | none => .jnull
  | some s => .jstr s

/-- `CacheEntry.to_dict`: the seven core fields are always written;
`comment` is written only when truthy (so an empty-string comment is
dropped) and `osm_version` only when not `None`. -/
def CacheEntry.to_dict (e : CacheEntry) : JDict :=
  let result : JDict :=
    [("osm_id", optIntJ e.osm_id),
     ("osm_type", optStrJ e.osm_type),
     ("wikidata_id", optStrJ e.wikidata_id),
     ("search_method", optStrJ e.search_method),
     ("search_name", optStrJ e.search_name),
     ("verified_at", .jstr e.verified_at),
     ("manual", .jbool e.manual)]
  let result := if truthyStr e.comment then result ++ [("comment", optStrJ e.comment)] else result
  let result :=
    match e.osm_version with
    | some n => result ++ [("osm_version", .jint n)]
    | none => result
  result

/-- Read an optional-integer field the way the schema types it
(missing keys and `null` give `None`). -/
def asInt? (o : Option JVal) : Option Int :=
  match o with
  | some (.jint n) => some n
  | _ => none

/-- Read an optional-string field the way the schema types it. -/
def asStr? (o : Option JVal) : Option String :=
  match o with
  | some (.jstr s) => some s
  | _ => none

/-- Read a string field with a Python `data.get(k, d)` default. -/
def asStrD (o : Option JVal) (d : String) : String :=
  match o with
  | some (.jstr s) => s
  | _ => d

/-- Read a boolean field with a Python `data.get(k, d)` default. -/
def asBoolD (o : Option JVal) (d : Bool) : Bool :=
  match o with
  | some (.jbool b) => b
  | _ => d

/-- `CacheEntry.from_dict`: permissive read, every field defaults when
missing (`verified_at` defaults to `""`, `manual` to `False`). -/
def CacheEntry.from_dict (data : JDict) : CacheEntry :=
  { osm_id := asInt? (assocGet data "osm_id")
    osm_type := asStr? (assocGet data "osm_type")
    wikidata_id := asStr? (assocGet data "wikidata_id")
    search_method := asStr? (assocGet data "search_method")
    search_name := asStr? (assocGet data "search_name")
    verified_at := asStrD (assocGet data "verified_at") ""
    manual := asBoolD (assocGet data "manual") false
    comment := asStr? (assocGet data "comment")
    osm_version := asInt? (assocGet data "osm_version") }

/-! ## cache.py: `CircuitCache`

The in-memory store. `_data["circuits"]` maps a circuit name to the raw
dictionary of its entry; `_load` guarantees the `circuits` key exists, so
the store is modelled as that mapping directly. File writes (`save`) are
modelled separately for the atomicity analysis. -/

/-- The mutable state of `CircuitCache`: name → raw entry dictionary. -/
structure Cache where
  circuits : List (String × JDict)
deriving Repr

/-- `CircuitCache.get`: return the parsed entry for a name, if present. -/
def Cache.get (c : Cache) (name : String) : Option CacheEntry :=
  (assocGet c.circuits name).map CacheEntry.from_dict

/-- `CircuitCache.set`: save a circuit to the cache. Refuses to overwrite an
entry whose stored `manual` field is truthy. A write without an OSM id is
auto-marked `manual` and, when no comment was supplied, given a TODO comment
that links the Wikidata entity when one is known. `now` stands for
`datetime.now().strftime("%Y-%m-%d %H:%M")`. -/
def Cache.set (c : Cache) (now : String) (name : String) (osm_id : Option Int)
    (osm_type : Option String := none) (wikidata_id : Option String := none)
    (method : Option String := none) (search_name : Option String := none)
    (comment : Option String := none) : Cache :=
  let existing : JDict := (assocGet c.circuits name).getD []
  if truthy (assocGet existing "manual") then c
  else
    let needs_manual := osm_id.isNone
    let entry : CacheEntry :=
      { osm_id := osm_id, osm_type := osm_type, wikidata_id := wikidata_id,
        search_method := method, search_name := search_name,
        verified_at := now, manual := needs_manual, comment := comment }
    let entry :=
      if needs_manual && !truthyStr comment then
        let c0 := "TODO: verify OSM ID manually"
        let c1 :=
          if truthyStr wikidata_id then
            c0 ++ " (check https://www.wikidata.org/wiki/" ++ wikidata_id.getD "" ++ ")"
          else c0
        { entry with comment := some c1 }
      else entry
    { circuits := assocSet c.circuits name entry.to_dict }

/-- `CircuitCache.update_version`: set the `osm_version` field of the raw
stored dictionary for a name (a no-op when the name is absent). Note that,
unlike `set`, it performs no check of the `manual` flag. -/
def Cache.update_version (c : Cache) (name : String) (version : Int) : Cache :=
  match assocGet c.circuits name with
  | none => c
  | some d => { circuits := assocSet c.circuits name (assocSet d "osm_version" (.jint version)) }

@[simp] theorem asInt?_optIntJ (o : Option Int) : asInt? (some (optIntJ o)) = o := by
  cases o <;> rfl

@[simp] theorem asStr?_optStrJ (o : Option String) : asStr? (some (optStrJ o)) = o := by
  cases o <;> rfl

@[simp] theorem asInt?_none : asInt? none = none := rfl

@[simp] theorem asStr?_none : asStr? none = none := rfl

@[simp] theorem asInt?_jint (n : Int) : asInt? (some (.jint n)) = some n := rfl

/-- C8 counterexample: an entry whose `comment` is the empty string does not
round-trip — `to_dict` drops the falsy comment and `from_dict` reads it back
as `None`, so the result differs from the original record. -/
theorem C8_roundtrip_counterexample :
    CacheEntry.from_dict (CacheEntry.to_dict
      { osm_id := some 5, osm_type := some "relation",
        verified_at := "2024-01-01 00:00", comment := some "" }) ≠
      { osm_id := some 5, osm_type := some "relation",
        verified_at := "2024-01-01 00:00", comment := some "" } := by
  decide

/-- C8 (amended): writing a `CacheEntry` with `to_dict` and reading it back
with `from_dict` restores every field exactly, except that an empty-string
`comment` (a falsy value, which `to_dict` omits just as it omits `None`) is
normalized to `None`. -/
theorem C8_roundtrip :
    ∀ e : CacheEntry,
      CacheEntry.from_dict (CacheEntry.to_dict e) =
        { e with comment := if e.comment = some "" then none else e.comment } := by
  intro e
  obtain ⟨oi, ot, wd, sm, sn, va, m, cm, ov⟩ := e
  rcases cm with _ | s
  · rcases ov with _ | n <;>
      simp [CacheEntry.to_dict, CacheEntry.from_dict, assocGet, truthyStr,
        asStrD, asBoolD]
  · by_cases hs : s = ""
    · subst hs
      rcases ov with _ | n <;>
        simp [CacheEntry.to_dict, CacheEntry.from_dict, assocGet, truthyStr,
          asStrD, asBoolD]
    · rcases ov with _ | n <;>
        simp [CacheEntry.to_dict, CacheEntry.from_dict, assocGet, truthyStr,
          asStrD, asBoolD, hs]

/-- C1 counterexample: `update_version` mutates a record whose `manual` flag
is set. Starting from a store whose entry for "X" is manual with
`osm_version = 1`, one call to `update_version` changes the stored record. -/
theorem C1_manual_counterexample :
    assocGet (Cache.update_version
        ⟨[("X", [("osm_id", .jint 5), ("manual", .jbool true), ("osm_version", .jint 1)])]⟩
        "X" 2).circuits "X" ≠
      assocGet (Cache.mk
        [("X", [("osm_id", .jint 5), ("manual", .jbool true), ("osm_version", .jint 1)])]).circuits
        "X" := by
  simp [Cache.update_version, assocGet, assocSet]

/-- C1 (amended): the persistence step `set` never mutates a record whose
stored `manual` field is truthy (a repeated `set` is an idempotent no-op on
such records), but `update_version` is not guarded by `manual`: it rewrites
the `osm_version` field of the stored record regardless of the flag, leaving
every other field of that record, and every other record, unchanged. -/
theorem C1_manual_override :
    (∀ (c : Cache) (now name : String) (oi : Option Int) (ot wd me sn cm : Option String),
      truthy (assocGet ((assocGet c.circuits name).getD []) "manual") = true →
      Cache.set c now name oi ot wd me sn cm = c) ∧
    (∀ (c : Cache) (name : String) (v : Int) (k : String), k ≠ "osm_version" →
      assocGet ((assocGet (Cache.update_version c name v).circuits name).getD []) k =
        assocGet ((assocGet c.circuits name).getD []) k) ∧
    (∀ (c : Cache) (name : String) (v : Int) (q : String), q ≠ name →
      assocGet (Cache.update_version c name v).circuits q = assocGet c.circuits q) := by
  refine ⟨?_, ?_, ?_⟩
  · intro c now name oi ot wd me sn cm h
    simp [Cache.set, h]
  · intro c name v k hk
    unfold Cache.update_version
    cases hd : assocGet c.circuits name with
    | none => simp [hd]
    | some d =>
      simp only [hd]
      rw [assocGet_assocSet_self]
      simp [assocGet_assocSet_other _ _ _ _ (Ne.symm hk)]
  · intro c name v q hq
    unfold Cache.update_version
    cases hd : assocGet c.circuits name with
    | none => rfl
    | some d =>
      simp only
      exact assocGet_assocSet_other _ _ _ _ (Ne.symm hq)

/-! ## File writes: `CircuitCache.save` versus `utils.atomic_write`

A write is modelled as a sequence of file-system operations; an interrupted
run executes only a prefix of that sequence. `open(path, "w")` truncates the
file at once; `json.dump` then writes the serialized content. -/

/-- One step of a file write. -/
inductive FsOp where
  | truncate (path : String)
  | writeAll (path : String) (content : String)
  | rename (src dst : String)

/-- A file system: path → content of the existing files. -/
abbrev Fs := List (String × String)

/-- Remove a path from the file system. -/
def fsRemove : Fs → String → Fs
  | [], _ => []
  | (p, s) :: rest, q => if p = q then fsRemove rest q else (p, s) :: fsRemove rest q

/-- Effect of one file-system operation. -/
def applyOp (fs : Fs) : FsOp → Fs
  | .truncate p => assocSet fs p ""
  | .writeAll p s => assocSet fs p s
  | .rename src dst =>
      match assocGet fs src with
      | none => fs
      | some s => assocSet (fsRemove fs src) dst s

/-- Run a sequence of file-system operations. -/
def runOps (fs : Fs) (ops : List FsOp) : Fs := ops.foldl applyOp fs

/-- `CircuitCache.save`: `open(self.path, "w")` followed by `json.dump` —
the target file itself is truncated and rewritten in place. -/
def cacheSaveOps (path content : String) : List FsOp :=
  [.truncate path, .writeAll path content]

/-- `utils.atomic_write`: the content is written to a fresh temporary file
in the same directory, which is then renamed over the target. -/
def atomicWriteOps (tmp path content : String) : List FsOp :=
  [.truncate tmp, .writeAll tmp content, .rename tmp path]

theorem fsRemove_assocGet_other (fs : Fs) (p q : String) (h : p ≠ q) :
    assocGet (fsRemove fs p) q = assocGet fs q := by
  induction fs with
  | nil => rfl
  | cons e rest ih =>
    obtain ⟨p', s⟩ := e
    by_cases hp : p' = p
    · subst hp
      simp [fsRemove, assocGet, h, ih]
    · by_cases hq : p' = q
      · subst hq
        simp [fsRemove, assocGet, hp, Ne.symm h]
      · simp [fsRemove, assocGet, hp, hq, ih]

/-- C4 counterexample: the mapping-store write (`CircuitCache.save`) is not
atomic. Starting from a store file holding a valid JSON object, interrupting
the save right after the `open(path, "w")` truncation leaves the target file
empty — truncated, not valid JSON, and the original content destroyed. -/
theorem C4_atomicity_counterexample :
    assocGet
      (runOps [("circuit_mappings.json", "\x7b \x22circuits\x22: \x7b\x7d \x7d")]
        ((cacheSaveOps "circuit_mappings.json" "\x7b \x22circuits\x22: \x7b \x22X\x22: \x7b\x7d \x7d \x7d").take 1))
      "circuit_mappings.json" = some "" ∧
    ("" : String) ≠ "\x7b \x22circuits\x22: \x7b\x7d \x7d" := by
  constructor
  · rfl
  · decide

/-- C4 (amended): `atomic_write` — used for the GeoJSON geometry output
files, not by `CircuitCache.save` — is atomic: after any prefix of its
operations the target file holds either its original content or the complete
new content. `CircuitCache.save` instead truncates the store file in place,
so an interruption can leave it truncated (see the counterexample); a
corrupt store is recovered on load by falling back to an empty store. -/
theorem C4_atomic_write (fs : Fs) (tmp path content : String) (hne : tmp ≠ path) :
    ∀ n : Nat,
      assocGet (runOps fs ((atomicWriteOps tmp path content).take n)) path = assocGet fs path ∨
      assocGet (runOps fs ((atomicWriteOps tmp path content).take n)) path = some content := by
  intro n
  match n with
  | 0 => left; rfl
  | 1 =>
    left
    simp [atomicWriteOps, runOps, applyOp, assocGet_assocSet_other _ _ _ _ hne]
  | 2 =>
    left
    simp [atomicWriteOps, runOps, applyOp, assocGet_assocSet_other _ _ _ _ hne]
  | (m + 3) =>
    right
    have htake : (atomicWriteOps tmp path content).take (m + 3) = atomicWriteOps tmp path content := by
      simp [atomicWriteOps]
    rw [htake]
    simp only [atomicWriteOps, runOps, List.foldl, applyOp]
    rw [assocGet_assocSet_self]
    simp [assocGet_assocSet_self]

/-- Witness for `C4_atomic_write`: a concrete interrupted run of
`atomic_write` (stopping after the temporary-file write, before the rename)
leaves the original target content intact. -/
theorem C4_atomic_write_witness :
    assocGet
        (runOps [("track.geojson", "old")]
          ((atomicWriteOps "tmpabc123.geojson" "track.geojson" "new").take 2))
        "track.geojson" = assocGet [("track.geojson", "old")] "track.geojson" ∨
      assocGet
        (runOps [("track.geojson", "old")]
          ((atomicWriteOps "tmpabc123.geojson" "track.geojson" "new").take 2))
        "track.geojson" = some "new" :=
  C4_atomic_write [("track.geojson", "old")] "tmpabc123.geojson" "track.geojson" "new"
    (by decide) 2

/-- Witness for `C1_manual_override` at concrete inputs: a manual record
survives a `set`, and `update_version` leaves the `osm_id` field and the
records of other names intact. -/
theorem C1_manual_override_witness :
    Cache.set ⟨[("X", [("manual", .jbool true)])]⟩ "2024" "X" (some 7)
        none none none none none = ⟨[("X", [("manual", .jbool true)])]⟩ ∧
    assocGet ((assocGet (Cache.update_version
        ⟨[("X", [("osm_id", .jint 5), ("manual", .jbool true)])]⟩ "X" 2).circuits "X").getD [])
      "osm_id" =
      assocGet ((assocGet (Cache.mk [("X", [("osm_id", .jint 5), ("manual", .jbool true)])]).circuits
        "X").getD []) "osm_id" ∧
    assocGet (Cache.update_version
        ⟨[("X", [("osm_id", .jint 5)])]⟩ "X" 2).circuits "Y" =
      assocGet (Cache.mk [("X", [("osm_id", .jint 5)])]).circuits "Y" :=
  ⟨C1_manual_override.1 _ "2024" "X" (some 7) none none none none none (by decide),
   C1_manual_override.2.1 _ "X" 2 "osm_id" (by decide),
   C1_manual_override.2.2 _ "X" 2 "Y" (by decide)⟩

/-! ## clients/overpass.py: scoring and failover -/

/-- A geospatial element as handled by the scorer: `element.get("type")` and
`element.get("tags", {})`, the tag values being strings per the Overpass
schema. -/
structure OsmElement where
  etype : Option String
  tags : List (String × String)
deriving Repr, DecidableEq

/-- `pat.isPrefixOf`-style check on character lists. -/
def charsStart : List Char → List Char → Bool
  | _, [] => true
  | [], _ :: _ => false
  | c :: cs, p :: ps => c == p && charsStart cs ps

/-- Substring occurrence on character lists. -/
def charsHave : List Char → List Char → Bool
  | l, [] => l == l
  | [], _ :: _ => false
  | c :: cs, p :: ps => charsStart (c :: cs) (p :: ps) || charsHave cs (p :: ps)

/-- Python `pat in s` for the fixed tag-value substring checks. -/
def strContains (s pat : String) : Bool := charsHave s.toList pat.toList

/-- `OverpassClient._circuit_score`: additive/subtractive likelihood score of
an element being an actual racing circuit, computed from its tags plus a
small bonus for relations. -/
def circuit_score (element : OsmElement) : Int :=
  let tags := element.tags
  let score : Int := 0
  let score := if assocGet tags "type" = some "circuit" then score + 100 else score
  let score := if assocGet tags "highway" = some "raceway" then score + 50 else score
  let score := if strContains ((assocGet tags "sport").getD "") "motor" then score + 10 else score
  let score := if assocGet tags "leisure" = some "track" then score + 10 else score
  let score :=
    if assocGet tags "type" = some "multipolygon" ∨ assocGet tags "type" = some "site" then
      score - 30
    else score
  let score := if assocGet tags "leisure" = some "sports_centre" then score - 50 else score
  let score := if assocGet tags "highway" = some "services" then score - 60 else score
  let score :=
    if (assocGet tags "landuse").isSome ∨ (assocGet tags "amenity").isSome then score - 20
    else score
  let score := if element.etype = some "relation" then score + 5 else score
  score

theorem iteAddShift (c : Prop) [Decidable c] (a k : Int) :
    (if c then a + k else a) = a + (if c then k else 0) := by
  split <;> simp

theorem iteSubShift (c : Prop) [Decidable c] (a k : Int) :
    (if c then a - k else a) = a + (if c then -k else 0) := by
  split <;> simp [sub_eq_add_neg]

/-- C6: the Candidate Scorer is a pure, deterministic function of the
element's tags and kind; its value is the sum of the rule table, and the
three concrete examples of the spec evaluate as stated (for a `way`, which
receives no relation bonus). -/
theorem C6_scorer :
    (∀ e₁ e₂ : OsmElement, e₁.tags = e₂.tags → e₁.etype = e₂.etype →
      circuit_score e₁ = circuit_score e₂) ∧
    (∀ e : OsmElement,
      circuit_score e =
        (if assocGet e.tags "type" = some "circuit" then (100 : Int) else 0) +
        (if assocGet e.tags "highway" = some "raceway" then 50 else 0) +
        (if strContains ((assocGet e.tags "sport").getD "") "motor" then 10 else 0) +
        (if assocGet e.tags "leisure" = some "track" then 10 else 0) +
        (if assocGet e.tags "type" = some "multipolygon" ∨ assocGet e.tags "type" = some "site"
          then -30 else 0) +
        (if assocGet e.tags "leisure" = some "sports_centre" then -50 else 0) +
        (if assocGet e.tags "highway" = some "services" then -60 else 0) +
        (if (assocGet e.tags "landuse").isSome ∨ (assocGet e.tags "amenity").isSome then -20
          else 0) +
        (if e.etype = some "relation" then 5 else 0)) ∧
    circuit_score ⟨some "way", [("type", "circuit")]⟩ = 100 ∧
    circuit_score ⟨some "way", [("highway", "services")]⟩ = -60 ∧
    circuit_score ⟨some "way", [("leisure", "sports_centre"), ("landuse", "x")]⟩ = -70 := by
  refine ⟨?_, ?_, by decide, by decide, by decide⟩
  · intro e₁ e₂ ht hk
    simp [circuit_score, ht, hk]
  · intro e
    simp only [circuit_score, iteAddShift, iteSubShift]
    simp [add_assoc]

/-- Witness for `C6_scorer` at a concrete input: two structurally equal
elements score equally. -/
theorem C6_scorer_witness :
    circuit_score ⟨some "relation", [("type", "circuit")]⟩ =
      circuit_score ⟨some "relation", [("type", "circuit")]⟩ :=
  C6_scorer.1 ⟨some "relation", [("type", "circuit")]⟩ ⟨some "relation", [("type", "circuit")]⟩
    rfl rfl

/-! ### `OverpassClient.query`: the Failover Query Executor

The loop is modelled as a function of the per-round server responses.
`rounds i` lists the responses the servers would give in retry round `i`,
aligned with the fixed server list. The outcome records the successful
response (with the index of the server that served it), the number of
rounds actually started, and the backoff sleeps performed. -/

/-- The response of one server to one request. -/
inductive SResp where
  | http (status_code : Nat) (body : String)
  | timeoutExc
  | connError
deriving Repr, DecidableEq

/-- Outcome of a full scan of the server list in one round: either the first
HTTP-200 response (short-circuiting the round) or the classified failure
counts `(timeouts, rate_limits, other_errors)`. -/
inductive RoundRes where
  | success (serverIdx : Nat) (body : String)
  | failed (timeouts rate_limits other_errors : Nat)
deriving Repr, DecidableEq

/-- Scan the server responses of one round in order, classifying failures:
429 → rate-limited, 504 or a transport timeout → timeout, anything else →
other error. -/
def roundScan : List SResp → RoundRes
  | [] => .failed 0 0 0
  | r :: rest =>
      match r with
      | .http 200 body => .success 0 body
      | .http code _ =>
          match roundScan rest with
          | .success i b => .success (i + 1) b
          | .failed tm rl oe =>
              if code = 429 then .failed tm (rl + 1) oe
              else if code = 504 then .failed (tm + 1) rl oe
              else .failed tm rl (oe + 1)
      | .timeoutExc =>
          match roundScan rest with
          | .success i b => .success (i + 1) b
          | .failed tm rl oe => .failed (tm + 1) rl oe
      | .connError =>
          match roundScan rest with
          | .success i b => .success (i + 1) b
          | .failed tm rl oe => .failed tm rl (oe + 1)

/-- Observable outcome of `OverpassClient.query`. -/
structure QueryOutcome where
  result : Option (String × Nat)
  roundsStarted : Nat
  sleeps : List Nat
deriving Repr, DecidableEq

/-- The retry loop of `OverpassClient.query` from round `attempt` on:
a success returns immediately; a full round with zero rate-limits returns
failure immediately; otherwise the loop sleeps `retry_delay * (attempt + 2)`
and retries, unless this was the last round. -/
def queryFrom (rounds : Nat → List SResp) (retry_delay max_retries attempt : Nat) :
    QueryOutcome :=
  if _h : attempt < max_retries then
    match roundScan (rounds attempt) with
    | .success i body => { result := some (body, i), roundsStarted := 1, sleeps := [] }
    | .failed _ rl _ =>
        if rl = 0 then { result := none, roundsStarted := 1, sleeps := [] }
        else if attempt < max_retries - 1 then
          let w := retry_delay * (attempt + 2)
          let rest := queryFrom rounds retry_delay max_retries (attempt + 1)
          { result := rest.result, roundsStarted := rest.roundsStarted + 1,
            sleeps := w :: rest.sleeps }
        else { result := none, roundsStarted := 1, sleeps := [] }
  else { result := none, roundsStarted := 0, sleeps := [] }
termination_by max_retries - attempt

/-- `OverpassClient.query` as observed through its rounds, retries and
sleeps (the leading shared rate-limit wait is not part of the retry logic). -/
def queryModel (rounds : Nat → List SResp) (retry_delay max_retries : Nat) : QueryOutcome :=
  queryFrom rounds retry_delay max_retries 0

/-- C5: when the first full round over the server list completes with zero
successes and zero rate-limited (429) servers, `query` returns failure
immediately after that single round — no backoff sleep, no further rounds.
In particular this holds with every server answering 504. -/
theorem C5_no_rate_limit_aborts (rounds : Nat → List SResp)
    (retry_delay max_retries tm oe : Nat) (hmr : 1 ≤ max_retries)
    (hround : roundScan (rounds 0) = .failed tm 0 oe) :
    queryModel rounds retry_delay max_retries =
      { result := none, roundsStarted := 1, sleeps := [] } := by
  unfold queryModel queryFrom
  rw [dif_pos (show 0 < max_retries by omega)]
  rw [hround]
  simp

/-- Witness for `C5_no_rate_limit_aborts`: three servers, all answering 504
in every round, three configured retries — failure after exactly one round
and no sleeps. -/
theorem C5_no_rate_limit_aborts_witness :
    queryModel (fun _ => [.http 504 "", .http 504 "", .http 504 ""]) 5 3 =
      { result := none, roundsStarted := 1, sleeps := [] } :=
  C5_no_rate_limit_aborts _ 5 3 3 0 (by decide) (by decide)

/-! ## models.py: `Circuit.search_names` -/

/-- Python `s.split(sep)` for a one-character separator, on character
lists (empty input gives `[""]`, adjacent separators give `""` parts). -/
def pySplitChars (sep : Char) : List Char → List Char → List (List Char)
  | [], acc => [acc.reverse]
  | c :: rest, acc =>
      if c = sep then acc.reverse :: pySplitChars sep rest []
      else pySplitChars sep rest (c :: acc)

/-- Python `s.split(sep)` for a one-character separator. -/
def pySplit (sep : Char) (s : String) : List String :=
  (pySplitChars sep s.toList []).map List.asString

/-- Python `s.strip()`: drop leading and trailing whitespace. -/
def pyStrip (s : String) : String :=
  (((s.toList.dropWhile Char.isWhitespace).reverse.dropWhile Char.isWhitespace).reverse).asString

/-- `models.Circuit`: an F1 circuit row from Wikipedia. -/
structure Circuit where
  name : String
  location : String
  country : String
  grands_prix : String := ""
deriving Repr, DecidableEq

/-- `Circuit.search_names`: the primary name first, then — when the
`grands_prix` field is non-empty — each comma-separated component,
stripped, skipping components that strip to nothing. -/
def Circuit.search_names (c : Circuit) : List String :=
  c.name ::
    (if c.grands_prix ≠ "" then
      ((pySplit ',' c.grands_prix).map pyStrip).filter (fun s => s ≠ "")
    else [])

/-- C9: the search-name list is non-empty, starts with exactly the primary
name, and continues with the non-empty stripped comma-separated components
of `grands_prix` in order (the guard on an empty `grands_prix` changes
nothing, because splitting the empty string yields only the empty
component, which is filtered out). Hence index 0 — the position the
pipeline marks as the primary-name match — is always the primary name. -/
theorem C9_search_names (c : Circuit) :
    c.search_names ≠ [] ∧
    c.search_names.head? = some c.name ∧
    c.search_names =
      c.name :: ((pySplit ',' c.grands_prix).map pyStrip).filter (fun s => s ≠ "") := by
  refine ⟨by simp [Circuit.search_names], by simp [Circuit.search_names], ?_⟩
  unfold Circuit.search_names
  by_cases h : c.grands_prix = ""
  · rw [h]
    rfl
  · simp [h]

/-- Witness for `C9_search_names` at a concrete circuit. -/
theorem C9_search_names_witness :
    (Circuit.search_names ⟨"Albert Park", "Melbourne", "Australia", "Australian Grand Prix, X"⟩ ≠ []) ∧
    (Circuit.search_names ⟨"Albert Park", "Melbourne", "Australia", "Australian Grand Prix, X"⟩).head? =
      some "Albert Park" ∧
    Circuit.search_names ⟨"Albert Park", "Melbourne", "Australia", "Australian Grand Prix, X"⟩ =
      "Albert Park" ::
        ((pySplit ',' "Australian Grand Prix, X").map pyStrip).filter (fun s => s ≠ "") :=
  C9_search_names ⟨"Albert Park", "Melbourne", "Australia", "Australian Grand Prix, X"⟩

/-! ## services.py: candidates and selection -/

/-- `services._Candidate`: an internal candidate for OSM search results. -/
structure Candidate where
  osm_id : Int
  osm_type : String
  qid : String
  method : String
  search_name : String
  score : Int
  from_circuit_name : Bool := false
deriving Repr, DecidableEq

/-- Strict comparison of selection keys: Python tuple order on
`(from_circuit_name, score)` with `False < True`. -/
def candKeyLt (a b : Candidate) : Bool :=
  (!a.from_circuit_name && b.from_circuit_name) ||
    (a.from_circuit_name == b.from_circuit_name && a.score < b.score)

/-- Stable descending insertion: place `x` before the first element whose
key is not strictly greater, so earlier candidates precede equal-key later
ones. -/
def insertDesc (x : Candidate) : List Candidate → List Candidate
  | [] => [x]
  | y :: ys => if candKeyLt x y then y :: insertDesc x ys else x :: y :: ys

/-- `candidates.sort(key=lambda c: (c.from_circuit_name, c.score),
reverse=True)`: a stable sort, descending in the key — modelled as stable
insertion sort (Python's sort is stable, and `reverse=True` keeps the
original order of key-equal elements). -/
def sortCandidates : List Candidate → List Candidate
  | [] => []
  | x :: xs => insertDesc x (sortCandidates xs)

/-- The first candidate, in discovery order, whose key is maximal — the
specification of the winner of a stable descending sort. -/
def firstBest : List Candidate → Option Candidate
  | [] => none
  | x :: xs =>
      match firstBest xs with
      | none => some x
      | some m => if candKeyLt x m then some m else some x

theorem candKeyLt_asymm (a b : Candidate) (h : candKeyLt a b = true) :
    candKeyLt b a = false := by
  cases ha : a.from_circuit_name <;> cases hb : b.from_circuit_name <;>
    simp [candKeyLt, ha, hb] at h ⊢ <;> omega

theorem candKeyLt_notLt_trans (a b c : Candidate) (hab : candKeyLt a b = false)
    (hbc : candKeyLt b c = false) : candKeyLt a c = false := by
  cases ha : a.from_circuit_name <;> cases hb : b.from_circuit_name <;>
      cases hc : c.from_circuit_name <;>
    simp [candKeyLt, ha, hb, hc] at hab hbc ⊢ <;> omega

theorem candKeyLt_irrefl (a : Candidate) : candKeyLt a a = false := by
  cases ha : a.from_circuit_name <;> simp [candKeyLt, ha]

theorem firstBest_none : ∀ cs : List Candidate, firstBest cs = none ↔ cs = [] := by
  intro cs
  cases cs with
  | nil => simp [firstBest]
  | cons x xs =>
    simp only [firstBest]
    cases firstBest xs with
    | none => simp
    | some m =>
      by_cases hk : candKeyLt x m = true
      · simp [hk]
      · simp [hk]

theorem firstBest_mem : ∀ (cs : List Candidate) (w : Candidate),
    firstBest cs = some w → w ∈ cs := by
  intro cs
  induction cs with
  | nil => intro w h; simp [firstBest] at h
  | cons x xs ih =>
    intro w h
    cases hxs : firstBest xs with
    | none =>
      simp only [firstBest, hxs] at h
      simp at h
      subst h
      exact List.mem_cons_self x xs
    | some m =>
      simp only [firstBest, hxs] at h
      by_cases hk : candKeyLt x m = true
      · rw [if_pos hk] at h
        simp at h
        subst h
        exact List.mem_cons_of_mem _ (ih m hxs)
      · rw [if_neg hk] at h
        simp at h
        subst h
        exact List.mem_cons_self x xs

theorem firstBest_maximal : ∀ (cs : List Candidate) (w : Candidate),
    firstBest cs = some w → ∀ c ∈ cs, candKeyLt w c = false := by
  intro cs
  induction cs with
  | nil => intro w h; simp [firstBest] at h
  | cons x xs ih =>
    intro w h c hc
    cases hxs : firstBest xs with
    | none =>
      have hxe : xs = [] := (firstBest_none xs).1 hxs
      subst hxe
      simp only [firstBest] at h
      simp at h
      subst h
      simp at hc
      subst hc
      exact candKeyLt_irrefl _
    | some m =>
      simp only [firstBest, hxs] at h
      rcases List.mem_cons.1 hc with hcx | hcxs
      · subst hcx
        by_cases hk : candKeyLt c m = true
        · rw [if_pos hk] at h
          simp at h
          subst h
          exact candKeyLt_asymm _ _ hk
        · rw [if_neg hk] at h
          simp at h
          subst h
          exact candKeyLt_irrefl _
      · by_cases hk : candKeyLt x m = true
        · rw [if_pos hk] at h
          simp at h
          subst h
          exact ih m hxs c hcxs
        · rw [if_neg hk] at h
          simp at h
          subst h
          exact candKeyLt_notLt_trans _ _ _ (Bool.eq_false_iff.2 hk) (ih m hxs c hcxs)

theorem sortCandidates_head : ∀ cs : List Candidate,
    (sortCandidates cs).head? = firstBest cs := by
  intro cs
  induction cs with
  | nil => rfl
  | cons x xs ih =>
    simp only [sortCandidates, firstBest]
    rw [← ih]
    cases hs : sortCandidates xs with
    | nil => simp [insertDesc]
    | cons y ys =>
      by_cases hk : candKeyLt x y = true
      · simp [insertDesc, hk]
      · simp [insertDesc, hk]

/-- C2: candidate selection — `candidates.sort(key=(from_circuit_name,
score), reverse=True)` followed by taking the head — is deterministic and
total-ordered: for every non-empty candidate list the head of the sorted
list is exactly the first candidate, in discovery order, with maximal
`(fromPrimaryName, score)` key; it belongs to the list, no candidate has a
strictly greater key, and it is primary-name-tagged whenever any candidate
is. In particular, of a primary-name candidate with score 10 and a
non-primary candidate with score 90, the primary-name one is selected. -/
theorem C2_selection :
    (∀ cs : List Candidate, cs ≠ [] →
      ∃ w, (sortCandidates cs).head? = some w ∧
        firstBest cs = some w ∧
        w ∈ cs ∧
        (∀ c ∈ cs, candKeyLt w c = false) ∧
        (∀ c ∈ cs, c.from_circuit_name = true → w.from_circuit_name = true)) ∧
    (∀ a b : Candidate, a.from_circuit_name = true → a.score = 10 →
      b.from_circuit_name = false → b.score = 90 →
      (sortCandidates [a, b]).head? = some a) := by
  constructor
  · intro cs hne
    cases hfb : firstBest cs with
    | none => exact absurd ((firstBest_none cs).1 hfb) hne
    | some w =>
      refine ⟨w, ?_, rfl, firstBest_mem cs w hfb, firstBest_maximal cs w hfb, ?_⟩
      · rw [sortCandidates_head, hfb]
      · intro c hc hcp
        by_contra hwp
        have hlt : candKeyLt w c = true := by
          simp [candKeyLt, hcp, Bool.eq_false_iff.2 hwp]
        have := firstBest_maximal cs w hfb c hc
        rw [this] at hlt
        exact Bool.false_ne_true hlt
  · intro a b ha has hb hbs
    simp [sortCandidates, insertDesc, candKeyLt, ha, hb]

/-- Witness for `C2_selection` at concrete inputs: the two-candidate spec
example, selecting the primary-name candidate with the lower score. -/
theorem C2_selection_witness :
    (∃ w, (sortCandidates
          [⟨1, "relation", "Q1", "P402", "A", 10, true⟩,
           ⟨2, "relation", "Q2", "P402", "B", 90, false⟩]).head? = some w ∧
        firstBest
          [⟨1, "relation", "Q1", "P402", "A", 10, true⟩,
           ⟨2, "relation", "Q2", "P402", "B", 90, false⟩] = some w ∧
        w ∈ [⟨1, "relation", "Q1", "P402", "A", 10, true⟩,
           ⟨2, "relation", "Q2", "P402", "B", 90, false⟩] ∧
        (∀ c ∈ [⟨1, "relation", "Q1", "P402", "A", 10, true⟩,
           (⟨2, "relation", "Q2", "P402", "B", 90, false⟩ : Candidate)],
          candKeyLt w c = false) ∧
        (∀ c ∈ [⟨1, "relation", "Q1", "P402", "A", 10, true⟩,
           (⟨2, "relation", "Q2", "P402", "B", 90, false⟩ : Candidate)],
          c.from_circuit_name = true → w.from_circuit_name = true)) ∧
    (sortCandidates
        [⟨1, "relation", "Q1", "P402", "A", 10, true⟩,
         ⟨2, "relation", "Q2", "P402", "B", 90, false⟩]).head? =
      some ⟨1, "relation", "Q1", "P402", "A", 10, true⟩ :=
  ⟨C2_selection.1 _ (by decide),
   C2_selection.2 ⟨1, "relation", "Q1", "P402", "A", 10, true⟩
     ⟨2, "relation", "Q2", "P402", "B", 90, false⟩ rfl rfl rfl rfl⟩

/-! ### `services.search_osm_id`

The pipeline, parameterized by oracles for the external clients. The
clients perform I/O; the embedding observes them through their
input/output behaviour only. A Python `KeyError` (reachable in the loops
through `all_qids[qid]` when a batch oracle answers for an identifier that
was never collected) is an `Except.error`. -/

/-- Oracles for the client calls made by `search_osm_id`:
`wikidata.find_ids`, `wikidata.get_p402_batch`,
`overpass.find_by_wikidata_tags_batch`, `overpass.find_by_name`
(returning `(osm_id, osm_type, server)`), `overpass.get_geometry` and
`osm.verify_exists`. -/
structure Env where
  find_ids : String → List String
  p402_batch : List String → List (String × Option Int)
  tags_batch : List String → List (String × (Option Int × Option String × Int))
  find_by_name : String → Option Int × Option String × Option String
  get_geometry : Int → String → Option OsmElement
  verify_exists : Int → String → Bool

/-- `models.SearchResult`. -/
structure SearchResult where
  osm_id : Int
  osm_type : String
  method : String
  wikidata_id : Option String := none
deriving Repr, DecidableEq

/-- Merge the Q-IDs found for one search name into
`(all_qids, circuit_name_qids)`: a Q-ID not seen before maps to the name
that produced it and, when the name is the primary one (index 0), is also
recorded as a circuit-name Q-ID. -/
def addQidsFrom (sn : String) (ishead : Bool) :
    List String → List (String × String) × List String →
    List (String × String) × List String
  | [], st => st
  | q :: qs, (aq, cn) =>
      if (assocGet aq q).isSome then addQidsFrom sn ishead qs (aq, cn)
      else addQidsFrom sn ishead qs (aq ++ [(q, sn)], if ishead then cn ++ [q] else cn)

/-- Step 1 of `search_osm_id`: iterate the search names with their index. -/
def collectQidsGo (env : Env) : Nat → List String →
    List (String × String) × List String → List (String × String) × List String
  | _, [], st => st
  | i, n :: ns, st => collectQidsGo env (i + 1) ns (addQidsFrom n (i == 0) (env.find_ids n) st)

/-- Step 1 of `search_osm_id`: `all_qids` (Q-ID → producing search name, in
discovery order) and `circuit_name_qids`. -/
def collectQids (env : Env) (names : List String) :
    List (String × String) × List String :=
  collectQidsGo env 0 names ([], [])

/-- Step 2 of `search_osm_id`: fold the P402 batch results into
`(checked_osm_ids, candidates)`. A truthy, unseen P402 id yields a
candidate with method `P402`, kind `relation` and an authority bonus of 20
on the element score. -/
def p402Step (env : Env) (aq : List (String × String)) (cn : List String) :
    List (String × Option Int) → List Int × List Candidate →
    Except String (List Int × List Candidate)
  | [], st => .ok st
  | (qid, p402) :: rest, (checked, cands) =>
      match p402 with
      | some id =>
          if id != 0 && !(checked.contains id) then
            match assocGet aq qid with
            | none => .error "KeyError"
            | some sn =>
                let score :=
                  match env.get_geometry id "relation" with
                  | some el => circuit_score el
                  | none => 0
                p402Step env aq cn rest
                  (checked ++ [id],
                   cands ++ [⟨id, "relation", qid, "P402", sn, score + 20, cn.contains qid⟩])
          else p402Step env aq cn rest (checked, cands)
      | none => p402Step env aq cn rest (checked, cands)

/-- Step 3 of `search_osm_id`: fold the wikidata-tag batch results into
`(checked_osm_ids, candidates)` with method `wikidata_tag`. -/
def tagsStep (env : Env) (aq : List (String × String)) (cn : List String) :
    List (String × (Option Int × Option String × Int)) → List Int × List Candidate →
    Except String (List Int × List Candidate)
  | [], st => .ok st
  | (qid, (oid, otype, score)) :: rest, (checked, cands) =>
      match oid, otype with
      | some id, some t =>
          if id != 0 && t != "" && !(checked.contains id) then
            match assocGet aq qid with
            | none => .error "KeyError"
            | some sn =>
                tagsStep env aq cn rest
                  (checked ++ [id],
                   cands ++ [⟨id, t, qid, "wikidata_tag", sn, score, cn.contains qid⟩])
          else tagsStep env aq cn rest (checked, cands)
      | _, _ => tagsStep env aq cn rest (checked, cands)

/-- `max((c.score for c in candidates), default=-999)`. -/
def bestScore : List Candidate → Int
  | [] => -999
  | c :: cs => cs.foldl (fun m d => max m d.score) c.score

/-- Step 4 of `search_osm_id`: the fallback name search, restricted to the
primary name; a truthy, unseen hit becomes a candidate with method
`osm_name`, an empty Q-ID and `from_circuit_name = True`. -/
def nameSearchStep (env : Env) (c : Circuit) (checked : List Int) (cands : List Candidate) :
    List Int × List Candidate :=
  let sn := (c.search_names).headD c.name
  match env.find_by_name sn with
  | (some id, some t, _) =>
      if id != 0 && t != "" && !(checked.contains id) then
        let score :=
          match env.get_geometry id t with
          | some el => circuit_score el
          | none => 0
        (checked ++ [id], cands ++ [⟨id, t, "", "osm_name", sn, score, true⟩])
      else (checked, cands)
  | _ => (checked, cands)

/-- One runner-up in the multiple-candidates comment. -/
def candDescr (c : Candidate) : String :=
  c.osm_type ++ "/" ++ toString c.osm_id ++ " (via \x27" ++ c.search_name ++ "\x27, " ++
    (if c.qid = "" then "name" else c.qid) ++ ", score=" ++ toString c.score ++ ")"

/-- The comment persisted when several candidates were found. -/
def buildComment (others : List Candidate) : String :=
  "Also found: " ++ String.intercalate ", " (others.map candDescr) ++ ". Please verify manually."

/-- `services.search_osm_id`: cache check, Q-ID collection, P402 batch,
wikidata-tag batch, fallback name search, selection and persistence. -/
def search_osm_id (env : Env) (now : String) (cache : Cache) (c : Circuit) :
    Except String (Option SearchResult × Cache) :=
  let afterCache : Option (Option SearchResult) :=
    match Cache.get cache c.name with
    | none => none
    | some cached =>
        match cached.osm_id with
        | none => if cached.manual then some none else none
        | some id =>
            if id != 0 && env.verify_exists id (strOr cached.osm_type "relation") then
              some (some ⟨id, strOr cached.osm_type "relation",
                "cache (" ++ strOr cached.search_method "cached" ++ ")", cached.wikidata_id⟩)
            else none
  match afterCache with
  | some res => .ok (res, cache)
  | none =>
      match collectQids env c.search_names with
      | (aq, cn) =>
          let qidList := aq.map Prod.fst
          let step23 : Except String (List Int × List Candidate) :=
            if aq.isEmpty then .ok ([], [])
            else
              match p402Step env aq cn (env.p402_batch qidList) ([], []) with
              | .error e => .error e
              | .ok st1 => tagsStep env aq cn (env.tags_batch qidList) st1
          match step23 with
          | .error e => .error e
          | .ok (checked, cands) =>
              let has_cn := cands.any (·.from_circuit_name)
              let shouldName :=
                cands.isEmpty || (!has_cn && decide (bestScore cands < 50))
              let cands2 := if shouldName then (nameSearchStep env c checked cands).2 else cands
              match cands2 with
              | [] =>
                  match aq with
                  | (q0, _) :: _ =>
                      .ok (none, Cache.set cache now c.name none none (some q0) none none none)
                  | [] => .ok (none, Cache.set cache now c.name none none none none none none)
              | _ :: _ =>
                  let sorted := sortCandidates cands2
                  let best := sorted.headD ⟨0, "", "", "", "", 0, false⟩
                  let comment :=
                    if cands2.length > 1 then some (buildComment sorted.tail) else none
                  let cache2 := Cache.set cache now c.name (some best.osm_id) (some best.osm_type)
                    (if best.qid = "" then none else some best.qid) (some best.method)
                    (some best.search_name) comment
                  let method_str :=
                    if best.qid = "" then "Overpass name search" else "Wikidata " ++ best.method
                  .ok (some ⟨best.osm_id, best.osm_type, method_str,
                    if best.qid = "" then none else some best.qid⟩, cache2)

theorem p402Step_all_none (env : Env) (aq : List (String × String)) (cn : List String) :
    ∀ (l : List (String × Option Int)) (st : List Int × List Candidate),
      (∀ x ∈ l, x.2 = none) → p402Step env aq cn l st = .ok st := by
  intro l
  induction l with
  | nil => intro st _; obtain ⟨ck, cd⟩ := st; rfl
  | cons x rest ih =>
    intro st h
    obtain ⟨ck, cd⟩ := st
    obtain ⟨qid, p⟩ := x
    have hp : p = none := h (qid, p) (List.mem_cons_self _ _)
    subst hp
    exact ih (ck, cd) (fun y hy => h y (List.mem_cons_of_mem _ hy))

theorem tagsStep_all_none (env : Env) (aq : List (String × String)) (cn : List String) :
    ∀ (l : List (String × (Option Int × Option String × Int)))
      (st : List Int × List Candidate),
      (∀ x ∈ l, x.2.1 = none) → tagsStep env aq cn l st = .ok st := by
  intro l
  induction l with
  | nil => intro st _; obtain ⟨ck, cd⟩ := st; rfl
  | cons x rest ih =>
    intro st h
    obtain ⟨ck, cd⟩ := st
    obtain ⟨qid, oid, ot, sc⟩ := x
    have hp : oid = none := h (qid, (oid, ot, sc)) (List.mem_cons_self _ _)
    subst hp
    cases ot <;> exact ih (ck, cd) (fun y hy => h y (List.mem_cons_of_mem _ hy))

theorem nameSearchStep_not_found (env : Env) (c : Circuit) (checked : List Int)
    (cands : List Candidate)
    (hn : (env.find_by_name ((c.search_names).headD c.name)).1 = none) :
    nameSearchStep env c checked cands = (checked, cands) := by
  unfold nameSearchStep
  rcases henv : env.find_by_name ((c.search_names).headD c.name) with ⟨o1, o2, o3⟩
  rw [henv] at hn
  simp at hn
  subst hn
  simp only [henv]

theorem to_dict_core_fields (e : CacheEntry) :
    assocGet e.to_dict "osm_id" = some (optIntJ e.osm_id) ∧
    assocGet e.to_dict "manual" = some (.jbool e.manual) ∧
    assocGet e.to_dict "wikidata_id" = some (optStrJ e.wikidata_id) := by
  unfold CacheEntry.to_dict
  by_cases hc : truthyStr e.comment <;> cases e.osm_version <;> simp [hc, assocGet]

/-- C3 counterexample environment: Wikidata knows one identifier `Q1` for
every name, but neither the P402 cross-reference, nor the wikidata-tag
search, nor the name search finds any geospatial element. -/
def envC3 : Env :=
  { find_ids := fun _ => ["Q1"]
    p402_batch := fun qs => qs.map (fun q => (q, none))
    tags_batch := fun qs => qs.map (fun q => (q, (none, none, 0)))
    find_by_name := fun _ => (none, none, none)
    get_geometry := fun _ _ => none
    verify_exists := fun _ _ => true }

/-- C3 counterexample: with no candidates but the knowledge-base identifier
`Q1` collected, the persisted "known-but-absent" record has
`wikidata_id = "Q1"` and `osm_id = null` as claimed, but its `manual` flag
is `true`, not `false`: `CircuitCache.set` auto-marks every record without
an OSM id as manual (and attaches the Wikidata TODO comment). -/
theorem C3_known_absent_counterexample :
    search_osm_id envC3 "2024-01-01 00:00" ⟨[]⟩ ⟨"X", "", "", ""⟩ =
      .ok (none, ⟨[("X",
        [("osm_id", .jnull), ("osm_type", .jnull), ("wikidata_id", .jstr "Q1"),
         ("search_method", .jnull), ("search_name", .jnull),
         ("verified_at", .jstr "2024-01-01 00:00"), ("manual", .jbool true),
         ("comment", .jstr "TODO: verify OSM ID manually (check https://www.wikidata.org/wiki/Q1)")])]⟩) ∧
    some (JVal.jbool true) ≠ some (JVal.jbool false) := by
  exact ⟨rfl, by simp⟩

/-- C3 (amended): for every entity for which the pipeline finds no
candidates at all (empty P402 batch results, empty wikidata-tag batch
results, failed fallback name search) but at least one knowledge-base
identifier, and which has no prior cache entry, the pipeline persists a
"known-but-absent" record: `osm_id` null and `wikidata_id` the first
collected identifier — but with `manual = true` (every record persisted
without a geospatial id is auto-marked manual), not `false`. The record
remains distinct from the fully-unknown case, whose `wikidata_id` is null. -/
theorem C3_known_absent (env : Env) (cache : Cache) (c : Circuit) (now : String)
    (q0 sn0 : String) (rest : List (String × String))
    (hnc : assocGet cache.circuits c.name = none)
    (hq : (collectQids env c.search_names).1 = (q0, sn0) :: rest)
    (hp : ∀ x ∈ env.p402_batch (((collectQids env c.search_names).1).map Prod.fst),
      x.2 = none)
    (ht : ∀ x ∈ env.tags_batch (((collectQids env c.search_names).1).map Prod.fst),
      x.2.1 = none)
    (hn : (env.find_by_name ((c.search_names).headD c.name)).1 = none) :
    search_osm_id env now cache c =
      .ok (none, Cache.set cache now c.name none none (some q0) none none none) ∧
    ∃ d, assocGet (Cache.set cache now c.name none none (some q0) none none
          none).circuits c.name = some d ∧
      assocGet d "osm_id" = some .jnull ∧
      assocGet d "manual" = some (.jbool true) ∧
      assocGet d "wikidata_id" = some (.jstr q0) ∧
      assocGet d "wikidata_id" ≠ some .jnull := by
  have hget : Cache.get cache c.name = none := by simp [Cache.get, hnc]
  have hcol : collectQids env c.search_names =
      ((q0, sn0) :: rest, (collectQids env c.search_names).2) := by
    rw [← hq]
  rw [hq] at hp ht
  constructor
  · unfold search_osm_id
    rw [hget, hcol]
    simp only [List.isEmpty_cons, Bool.false_eq_true, if_false,
      p402Step_all_none env _ _ _ ([], []) hp,
      tagsStep_all_none env _ _ _ ([], []) ht]
    simp [nameSearchStep_not_found env c [] [] hn]
  · refine ⟨(CacheEntry.to_dict
      { osm_id := none, osm_type := none, wikidata_id := some q0,
        search_method := none, search_name := none, verified_at := now,
        manual := true,
        comment := some (if truthyStr (some q0) then
          "TODO: verify OSM ID manually" ++ " (check https://www.wikidata.org/wiki/" ++
            (some q0).getD "" ++ ")"
          else "TODO: verify OSM ID manually") }), ?_, ?_⟩
    · unfold Cache.set
      rw [hnc]
      simp only [Option.getD_none, truthy, assocGet]
      simp only [Bool.false_eq_true, if_false]
      simp only [Option.isNone_none, truthyStr, Bool.not_false, Bool.and_self, if_pos]
      exact assocGet_assocSet_self _ _ _
    · refine ⟨(to_dict_core_fields _).1, (to_dict_core_fields _).2.1,
        (to_dict_core_fields _).2.2, ?_⟩
      rw [(to_dict_core_fields _).2.2]
      simp [optStrJ]

/-- Witness for `C3_known_absent` at the concrete counterexample
environment. -/
theorem C3_known_absent_witness :
    search_osm_id envC3 "2024-01-01 00:00" ⟨[]⟩ ⟨"X", "", "", ""⟩ =
      .ok (none, Cache.set ⟨[]⟩ "2024-01-01 00:00" "X" none none (some "Q1") none none none) ∧
    ∃ d, assocGet (Cache.set ⟨[]⟩ "2024-01-01 00:00" "X" none none (some "Q1") none none
          none).circuits "X" = some d ∧
      assocGet d "osm_id" = some .jnull ∧
      assocGet d "manual" = some (.jbool true) ∧
      assocGet d "wikidata_id" = some (.jstr "Q1") ∧
      assocGet d "wikidata_id" ≠ some .jnull :=
  C3_known_absent envC3 ⟨[]⟩ ⟨"X", "", "", ""⟩ "2024-01-01 00:00" "Q1" "X" []
    rfl rfl (by decide) (by decide) rfl

/-! ## clients/wikidata.py: `get_p402_batch`

The SPARQL response is modelled as a parsed JSON value (`none` standing for
a request exception or a JSON-decode failure — both caught by the outer
handler, which then returns the all-`None` map). Python exceptions that the
code does not catch (`AttributeError`, `TypeError`) are `Except.error`. -/

/-- Digit-sequence parser (base of the `int(...)` model). -/
def parseDigits : List Char → Option Nat → Option Nat
  | [], acc => acc
  | c :: cs, acc =>
      if c.isDigit then parseDigits cs (some ((acc.getD 0) * 10 + (c.toNat - 48)))
      else none

/-- Python `int(s)` on a string: optional sign, digits, surrounding
whitespace allowed; anything else raises `ValueError`, modelled as `none`. -/
def pyIntOfStr (s : String) : Option Int :=
  match (pyStrip s).toList with
  | '-' :: cs => (parseDigits cs none).map (fun n => -(n : Int))
  | '+' :: cs => (parseDigits cs none).map (fun n => (n : Int))
  | cs => (parseDigits cs none).map (fun n => (n : Int))

/-- Python `int(v)` on a JSON value: strings are parsed (`ValueError` on
failure, modelled `ok none`), integers and booleans convert, anything else
raises `TypeError` — which the inner `except (ValueError, KeyError)` does
not catch. -/
def pyInt : JVal → Except String (Option Int)
  | .jstr s => .ok (pyIntOfStr s)
  | .jint n => .ok (some n)
  | .jbool b => .ok (some (if b then 1 else 0))
  | _ => .error "TypeError"

/-- Python iteration over the `bindings` value: lists yield their items,
dicts their keys, strings their characters; other values raise `TypeError`. -/
def pyIter : JVal → Except String (List JVal)
  | .jarr items => .ok items
  | .jobj fields => .ok (fields.map (fun p => .jstr p.1))
  | .jstr s => .ok (s.toList.map (fun ch => .jstr (String.mk [ch])))
  | _ => .error "TypeError"

/-- `binding.get("item", {}).get("value", "")` followed by
`item_uri.split("/")[-1]`: the Q-ID a binding refers to. A non-dict binding
or `item`, or a non-string `value`, raises `AttributeError`. -/
def extractQid (binding : JVal) : Except String String :=
  match binding with
  | .jobj fs =>
      match (assocGet fs "item").getD (.jobj []) with
      | .jobj ifs =>
          match (assocGet ifs "value").getD (.jstr "") with
          | .jstr uri => .ok ((pySplit '/' uri).getLastD "")
          | _ => .error "AttributeError"
      | _ => .error "AttributeError"
  | _ => .error "AttributeError"

/-- The OSM-relation update a binding carries: `ok none` when there is no
`osmRelation` member, its dict lacks `value`, or the value fails to parse
(`KeyError`/`ValueError`, both caught and passed); `ok (some n)` on
success; `error` when the member is not a dict or the value is non-scalar
(`TypeError`, uncaught). -/
def bindingOsm (binding : JVal) : Except String (Option Int) :=
  match binding with
  | .jobj fs =>
      match assocGet fs "osmRelation" with
      | none => .ok none
      | some rel =>
          match rel with
          | .jobj rfs =>
              match assocGet rfs "value" with
              | none => .ok none
              | some v => pyInt v
          | _ => .error "TypeError"
  | _ => .error "AttributeError"

/-- The loop body of `get_p402_batch` for one binding. -/
def processBinding (results : List (String × Option Int)) (binding : JVal) :
    Except String (List (String × Option Int)) :=
  match extractQid binding with
  | .error e => .error e
  | .ok qid =>
      match bindingOsm binding with
      | .error e => .error e
      | .ok none => .ok results
      | .ok (some n) => .ok (assocSet results qid (some n))

/-- The binding loop of `get_p402_batch`. -/
def foldBindings (bs : List JVal) (results : List (String × Option Int)) :
    Except String (List (String × Option Int)) :=
  match bs with
  | [] => .ok results
  | b :: rest =>
      match processBinding results b with
      | .error e => .error e
      | .ok r2 => foldBindings rest r2

/-- `WikidataClient.get_p402_batch`: initialize every input Q-ID to `None`,
then walk `data["results"]["bindings"]` updating the entry each binding
names. -/
def get_p402_batch (qids : List String) (resp : Option JVal) :
    Except String (List (String × Option Int)) :=
  if qids.isEmpty then .ok []
  else
    match resp with
    | none => .ok (qids.map (fun q => (q, none)))
    | some data =>
        match data with
        | .jobj dfs =>
            match (assocGet dfs "results").getD (.jobj []) with
            | .jobj rfs =>
                match pyIter ((assocGet rfs "bindings").getD (.jarr [])) with
                | .error e => .error e
                | .ok bs => foldBindings bs (qids.map (fun q => (q, none)))
            | _ => .error "AttributeError"
        | _ => .error "AttributeError"

/-- A binding of the shape the code survives, i.e. on which neither the
Q-ID extraction nor the value conversion raises an uncaught exception: a
dict whose `item` (if any) is a dict with a string (or absent) `value`, and
whose `osmRelation` (if any) is a dict with a scalar (or absent) `value`. -/
def tameBinding (b : JVal) : Bool :=
  (match extractQid b with
   | .ok _ => true
   | .error _ => false) &&
  (match bindingOsm b with
   | .ok _ => true
   | .error _ => false)

/-- The Q-ID a binding names (total version, for tame bindings). -/
def bindingQid (b : JVal) : String :=
  match extractQid b with
  | .ok q => q
  | .error _ => ""

/-- The net effect of a binding list on the entry of one Q-ID: only
bindings naming that Q-ID with a successfully parsed value change it. -/
def qidEffect (q : String) (bs : List JVal) (init : Option Int) : Option Int :=
  bs.foldl (fun acc b =>
    if bindingQid b = q then
      match bindingOsm b with
      | .ok (some n) => some n
      | _ => acc
    else acc) init

/-- The SPARQL JSON envelope around a binding list. -/
def mkResp (bs : List JVal) : JVal :=
  .jobj [("results", .jobj [("bindings", .jarr bs)])]

/-- C7 counterexample: a single malformed binding whose `osmRelation` is a
bare string makes `int(binding["osmRelation"]["value"])` raise `TypeError`
(not caught by the inner `except (ValueError, KeyError)`), so
`get_p402_batch` raises instead of returning a mapping — dropping the
already-resolved entry of the unrelated identifier Q1 along with everything
else. -/
theorem C7_batch_counterexample :
    get_p402_batch ["Q1", "Q2"] (some (mkResp
      [.jobj [("item", .jobj [("value", .jstr "http://www.wikidata.org/entity/Q1")]),
              ("osmRelation", .jobj [("value", .jstr "7")])],
       .jobj [("item", .jobj [("value", .jstr "http://www.wikidata.org/entity/Q2")]),
              ("osmRelation", .jstr "9")]])) = .error "TypeError" := by
  rfl

theorem extractQid_tame (b : JVal) (h : tameBinding b = true) :
    extractQid b = .ok (bindingQid b) := by
  unfold tameBinding at h
  rw [Bool.and_eq_true] at h
  obtain ⟨h1, _⟩ := h
  unfold bindingQid
  cases hq : extractQid b with
  | ok q => rfl
  | error e => rw [hq] at h1; simp at h1

theorem bindingOsm_tame (b : JVal) (h : tameBinding b = true) :
    ∃ r, bindingOsm b = .ok r := by
  unfold tameBinding at h
  rw [Bool.and_eq_true] at h
  obtain ⟨_, h2⟩ := h
  cases ho : bindingOsm b with
  | ok r => exact ⟨r, rfl⟩
  | error e => rw [ho] at h2; simp at h2

theorem foldBindings_tame : ∀ (bs : List JVal) (results : List (String × Option Int)),
    bs.all tameBinding = true →
    ∃ res, foldBindings bs results = .ok res ∧
      ∀ q v, assocGet results q = some v → assocGet res q = some (qidEffect q bs v) := by
  intro bs
  induction bs with
  | nil => intro results _; exact ⟨results, rfl, fun q v hv => by simpa [qidEffect] using hv⟩
  | cons b rest ih =>
    intro results hall
    simp only [List.all_cons, Bool.and_eq_true] at hall
    obtain ⟨hb, hrest⟩ := hall
    obtain ⟨r, hr⟩ := bindingOsm_tame b hb
    have hq := extractQid_tame b hb
    have heff : ∀ (q : String) (v : Option Int), qidEffect q (b :: rest) v =
        qidEffect q rest (if bindingQid b = q then
          (match bindingOsm b with
           | .ok (some n) => some n
           | _ => v)
          else v) := by
      intro q v
      simp [qidEffect]
    cases r with
    | none =>
      have hpb : processBinding results b = .ok results := by
        unfold processBinding
        rw [hq, hr]
      obtain ⟨res, hres, hlook⟩ := ih results hrest
      refine ⟨res, ?_, ?_⟩
      · unfold foldBindings
        rw [hpb]
        exact hres
      · intro q v hv
        rw [heff q v, hr]
        by_cases hbq : bindingQid b = q
        · rw [if_pos hbq]
          exact hlook _ _ hv
        · rw [if_neg hbq]
          exact hlook _ _ hv
    | some n =>
      have hpb : processBinding results b =
          .ok (assocSet results (bindingQid b) (some n)) := by
        unfold processBinding
        rw [hq, hr]
      obtain ⟨res, hres, hlook⟩ := ih (assocSet results (bindingQid b) (some n)) hrest
      refine ⟨res, ?_, ?_⟩
      · unfold foldBindings
        rw [hpb]
        exact hres
      · intro q v hv
        rw [heff q v, hr]
        by_cases hbq : bindingQid b = q
        · rw [if_pos hbq]
          subst hbq
          exact hlook _ _ (assocGet_assocSet_self _ _ _)
        · rw [if_neg hbq]
          refine hlook _ _ ?_
          rw [assocGet_assocSet_other _ _ _ _ hbq]
          exact hv

theorem assocGet_init_none : ∀ (qids : List String) (q : String), q ∈ qids →
    assocGet (qids.map (fun x => (x, (none : Option Int)))) q = some none := by
  intro qids
  induction qids with
  | nil => intro q hq; simp at hq
  | cons x rest ih =>
    intro q hq
    by_cases hx : x = q
    · simp [assocGet, hx]
    · rcases List.mem_cons.1 hq with h | h
      · exact absurd h.symm hx
      · simp [assocGet, hx, ih q h]

/-- C7 (amended): `get_p402_batch` returns an entry for every input
identifier — all `None` when the whole batch request fails, and, for
responses whose bindings all have the tame shape the code anticipates
(dict bindings with dict `item`/`osmRelation` members), an entry whose
value is determined solely by the bindings naming that identifier: a
malformed-but-tame binding (missing members or an unparseable value) is
passed over and bindings never drop or alter the entries of other
identifiers. (For a non-tame binding the code instead raises `TypeError` or
`AttributeError` — see the counterexample.) -/
theorem C7_batch_entries (qids : List String) (bs : List JVal)
    (hall : bs.all tameBinding = true) :
    get_p402_batch qids none = .ok (qids.map (fun q => (q, none))) ∧
    ∃ res, get_p402_batch qids (some (mkResp bs)) = .ok res ∧
      ∀ q ∈ qids, assocGet res q = some (qidEffect q bs none) := by
  constructor
  · unfold get_p402_batch
    cases qids with
    | nil => rfl
    | cons x rest => rfl
  · obtain ⟨res, hres, hlook⟩ :=
      foldBindings_tame bs (qids.map (fun q => (q, none))) hall
    cases hq : qids with
    | nil => exact ⟨[], rfl, by simp⟩
    | cons x rest =>
        subst hq
        refine ⟨res, ?_, ?_⟩
        · unfold get_p402_batch mkResp pyIter
          simp only [List.isEmpty_cons, Bool.false_eq_true, if_false, assocGet]
          exact hres
        · intro q hqm
          exact hlook q none (assocGet_init_none _ q hqm)

/-- Witness for `C7_batch_entries`: two identifiers, one valid binding for
Q1 and one empty (no `osmRelation`) binding for Q2 — Q1 resolves to 7, Q2
stays `None`, and the failure case maps both to `None`. -/
theorem C7_batch_entries_witness :
    get_p402_batch ["Q1", "Q2"] none = .ok ([("Q1", none), ("Q2", none)]) ∧
    ∃ res, get_p402_batch ["Q1", "Q2"] (some (mkResp
        [.jobj [("item", .jobj [("value", .jstr "http://www.wikidata.org/entity/Q1")]),
                ("osmRelation", .jobj [("value", .jstr "7")])],
         .jobj [("item", .jobj [("value", .jstr "http://www.wikidata.org/entity/Q2")])]])) =
        .ok res ∧
      ∀ q ∈ ["Q1", "Q2"], assocGet res q = some (qidEffect q
        [.jobj [("item", .jobj [("value", .jstr "http://www.wikidata.org/entity/Q1")]),
                ("osmRelation", .jobj [("value", .jstr "7")])],
         .jobj [("item", .jobj [("value", .jstr "http://www.wikidata.org/entity/Q2")])]] none) := by
  have h := C7_batch_entries ["Q1", "Q2"]
    [.jobj [("item", .jobj [("value", .jstr "http://www.wikidata.org/entity/Q1")]),
            ("osmRelation", .jobj [("value", .jstr "7")])],
     .jobj [("item", .jobj [("value", .jstr "http://www.wikidata.org/entity/Q2")])]]
    (by rfl)
  simpa using h

/-! ## services.py: `element_to_geojson`

The converter receives the parsed JSON of one Overpass element (a dict).
Subscripting (`member["type"]`, `p["lon"]`) raises `KeyError` on a dict
missing the key and `TypeError` on a non-dict, neither of which the
function catches. -/

/-- Python subscript `v[k]` with a string key. -/
def getItem (v : JVal) (k : String) : Except String JVal :=
  match v with
  | .jobj fs =>
      match assocGet fs k with
      | some x => .ok x
      | none => .error "KeyError"
  | _ => .error "TypeError"

/-- Python `k in v` for a dict value (`False` on non-dicts here, which the
code only reaches for values already known to be dicts). -/
def hasKeyJ : JVal → String → Bool
  | .jobj fs, k => (assocGet fs k).isSome
  | _, _ => false

/-- Python `v == "s"` for a JSON value against a string literal. -/
def isStr (v : JVal) (s : String) : Bool :=
  match v with
  | .jstr s2 => s2 == s
  | _ => false

/-- `m.get(k, d)` on a value known to be a dict. -/
def jGetD (m : JVal) (k : String) (d : JVal) : JVal :=
  match m with
  | .jobj fs => (assocGet fs k).getD d
  | _ => d

/-- `[p["lon"], p["lat"]]` for one geometry point. -/
def pointCoord (p : JVal) : Except String JVal :=
  match getItem p "lon" with
  | .error e => .error e
  | .ok lon =>
      match getItem p "lat" with
      | .error e => .error e
      | .ok lat => .ok (.jarr [lon, lat])

/-- The coordinate list of one geometry value. -/
def geomCoords (g : JVal) : Except String (List JVal) :=
  match pyIter g with
  | .error e => .error e
  | .ok pts => pts.mapM pointCoord

/-- The GeoJSON geometry member shared by both branches. -/
def lineStringGeom (coords : List JVal) : JVal :=
  .jobj [("type", .jstr "LineString"), ("coordinates", .jarr coords)]

/-- The feature one relation member contributes: only a member whose
`type` is `"way"` and which carries a `geometry` yields one. -/
def memberFeature (m : JVal) : Except String (Option JVal) :=
  match getItem m "type" with
  | .error e => .error e
  | .ok t =>
      if isStr t "way" then
        if hasKeyJ m "geometry" then
          match getItem m "geometry" with
          | .error e => .error e
          | .ok g =>
              match geomCoords g with
              | .error e => .error e
              | .ok coords =>
                  .ok (some (.jobj
                    [("type", .jstr "Feature"),
                     ("properties", .jobj
                       [("role", jGetD m "role" (.jstr "")),
                        ("ref", jGetD m "ref" .jnull)]),
                     ("geometry", lineStringGeom coords)]))
        else .ok none
      else .ok none

/-- `services.element_to_geojson`: convert an Overpass element (relation or
way) to a GeoJSON FeatureCollection. -/
def element_to_geojson (element : JDict) : Except String JVal :=
  let osm_type := (assocGet element "type").getD (.jstr "relation")
  let featsE : Except String (List JVal) :=
    if isStr osm_type "relation" then
      match pyIter ((assocGet element "members").getD (.jarr [])) with
      | .error e => .error e
      | .ok ms =>
          match ms.mapM memberFeature with
          | .error e => .error e
          | .ok feats => .ok (feats.filterMap id)
    else if isStr osm_type "way" then
      if (assocGet element "geometry").isSome then
        match geomCoords ((assocGet element "geometry").getD .jnull) with
        | .error e => .error e
        | .ok coords =>
            .ok [.jobj
              [("type", .jstr "Feature"),
               ("properties", .jobj []),
               ("geometry", lineStringGeom coords)]]
      else .ok []
    else .ok []
  match featsE with
  | .error e => .error e
  | .ok feats =>
      .ok (.jobj [("type", .jstr "FeatureCollection"), ("features", .jarr feats)])

/-- A `[lon, lat]` coordinate pair. -/
def isPair : JVal → Bool
  | .jarr [_, _] => true
  | _ => false

/-- A GeoJSON feature whose geometry is a LineString of coordinate pairs. -/
def isLineStringFeature : JVal → Bool
  | .jobj fs =>
      (match assocGet fs "type" with
       | some (.jstr s) => s == "Feature"
       | _ => false) &&
      (match assocGet fs "geometry" with
       | some (.jobj gs) =>
           (match assocGet gs "type" with
            | some (.jstr s) => s == "LineString"
            | _ => false) &&
           (match assocGet gs "coordinates" with
            | some (.jarr cs) => cs.all isPair
            | _ => false)
       | _ => false)
  | _ => false

/-- A geometry point the code survives: a dict with `lon` and `lat` keys. -/
def wfPoint : JVal → Bool
  | .jobj fs => (assocGet fs "lon").isSome && (assocGet fs "lat").isSome
  | _ => false

/-- A geometry the code survives: a list of well-formed points. -/
def wfGeom : JVal → Bool
  | .jarr pts => pts.all wfPoint
  | _ => false

/-- A relation member the code survives: a dict carrying a `type` key and,
when it is a way with a geometry, a well-formed geometry. -/
def wfMember : JVal → Bool
  | .jobj fs =>
      match assocGet fs "type" with
      | none => false
      | some t =>
          if isStr t "way" then
            match assocGet fs "geometry" with
            | none => true
            | some g => wfGeom g
          else true
  | _ => false

/-- A member that contributes a feature: a dict of type `"way"` carrying a
`geometry` key. -/
def goodMember : JVal → Bool
  | .jobj fs => isStr ((assocGet fs "type").getD .jnull) "way" && (assocGet fs "geometry").isSome
  | _ => false

/-- An element dictionary the converter is total on. -/
def wfElement (element : JDict) : Bool :=
  let t := (assocGet element "type").getD (.jstr "relation")
  if isStr t "relation" then
    match assocGet element "members" with
    | none => true
    | some (.jarr ms) => ms.all wfMember
    | some _ => false
  else if isStr t "way" then
    match assocGet element "geometry" with
    | none => true
    | some g => wfGeom g
  else true

/-- C10 counterexample: `element_to_geojson` is not total over arbitrary
element dictionaries — a relation whose member lacks a `type` key makes
`member["type"]` raise `KeyError`, so no FeatureCollection is returned. -/
theorem C10_geojson_counterexample :
    element_to_geojson [("type", .jstr "relation"), ("members", .jarr [.jobj []])] =
      .error "KeyError" := by
  rfl

theorem isStr_unique (v : JVal) (s1 s2 : String) (h1 : isStr v s1 = true)
    (h2 : isStr v s2 = true) : s1 = s2 := by
  match v with
  | .jnull | .jbool _ | .jint _ | .jarr _ | .jobj _ => simp [isStr] at h1
  | .jstr s =>
    simp only [isStr, beq_iff_eq] at h1 h2
    rw [← h1, ← h2]

theorem pointCoord_wf (p : JVal) (h : wfPoint p = true) :
    ∃ a b, pointCoord p = .ok (.jarr [a, b]) := by
  match p with
  | .jnull | .jbool _ | .jint _ | .jstr _ | .jarr _ => simp [wfPoint] at h
  | .jobj fs =>
    simp only [wfPoint, Bool.and_eq_true, Option.isSome_iff_exists] at h
    obtain ⟨⟨lon, hlon⟩, ⟨lat, hlat⟩⟩ := h
    have h1 : getItem (.jobj fs) "lon" = .ok lon := by simp [getItem, hlon]
    have h2 : getItem (.jobj fs) "lat" = .ok lat := by simp [getItem, hlat]
    exact ⟨lon, lat, by simp [pointCoord, h1, h2]⟩

theorem mapM_pointCoord_wf : ∀ pts : List JVal, pts.all wfPoint = true →
    ∃ coords, pts.mapM pointCoord = .ok coords ∧ ∀ c ∈ coords, isPair c = true := by
  intro pts
  induction pts with
  | nil => intro _; exact ⟨[], rfl, by simp⟩
  | cons p ps ih =>
    intro h
    simp only [List.all_cons, Bool.and_eq_true] at h
    obtain ⟨hp, hps⟩ := h
    obtain ⟨a, b, hpc⟩ := pointCoord_wf p hp
    obtain ⟨coords, hcs, hall⟩ := ih hps
    refine ⟨.jarr [a, b] :: coords, ?_, ?_⟩
    · rw [List.mapM_cons, hpc, hcs]
      rfl
    · intro c hc
      rcases List.mem_cons.1 hc with hh | hh
      · subst hh; rfl
      · exact hall c hh

theorem geomCoords_wf (g : JVal) (h : wfGeom g = true) :
    ∃ coords, geomCoords g = .ok coords ∧ ∀ c ∈ coords, isPair c = true := by
  match g with
  | .jnull | .jbool _ | .jint _ | .jstr _ | .jobj _ => simp [wfGeom] at h
  | .jarr pts =>
    simp only [wfGeom] at h
    obtain ⟨coords, hcs, hall⟩ := mapM_pointCoord_wf pts h
    refine ⟨coords, ?_, hall⟩
    simp only [geomCoords, pyIter]
    exact hcs

theorem memberFeature_wf (m : JVal) (h : wfMember m = true) :
    ∃ o, memberFeature m = .ok o ∧ (∀ f, o = some f → isLineStringFeature f = true) ∧
      o.isSome = goodMember m := by
  match m with
  | .jnull | .jbool _ | .jint _ | .jstr _ | .jarr _ => simp [wfMember] at h
  | .jobj fs =>
    cases hT : assocGet fs "type" with
    | none => simp [wfMember, hT] at h
    | some t =>
      have hgt : getItem (.jobj fs) "type" = .ok t := by simp [getItem, hT]
      by_cases hw : isStr t "way" = true
      · cases hG : assocGet fs "geometry" with
        | none =>
          refine ⟨none, ?_, by simp, ?_⟩
          · simp [memberFeature, hgt, hw, hasKeyJ, hG]
          · simp [goodMember, hT, hw, hG]
        | some g =>
          have hwg : wfGeom g = true := by
            simp only [wfMember, hT, hw, if_true, hG] at h
            exact h
          obtain ⟨coords, hcs, hall⟩ := geomCoords_wf g hwg
          have hgg : getItem (.jobj fs) "geometry" = .ok g := by simp [getItem, hG]
          refine ⟨some (.jobj
            [("type", .jstr "Feature"),
             ("properties", .jobj
               [("role", jGetD (.jobj fs) "role" (.jstr "")),
                ("ref", jGetD (.jobj fs) "ref" .jnull)]),
             ("geometry", lineStringGeom coords)]), ?_, ?_, ?_⟩
          · simp [memberFeature, hgt, hw, hasKeyJ, hG, hgg, hcs]
          · intro f hf
            rw [Option.some.injEq] at hf
            subst hf
            simp only [isLineStringFeature, lineStringGeom]
            simp [assocGet, List.all_eq_true]
            exact hall
          · simp [goodMember, hT, hw, hG]
      · refine ⟨none, ?_, by simp, ?_⟩
        · simp [memberFeature, hgt, hw]
        · simp [goodMember, hT, hw]

theorem mapM_memberFeature_wf : ∀ ms : List JVal, ms.all wfMember = true →
    ∃ os, ms.mapM memberFeature = .ok os ∧
      (∀ f ∈ os.filterMap id, isLineStringFeature f = true) ∧
      (os.filterMap id).length = (ms.filter goodMember).length := by
  intro ms
  induction ms with
  | nil => intro _; exact ⟨[], rfl, by simp, by simp⟩
  | cons m rest ih =>
    intro h
    simp only [List.all_cons, Bool.and_eq_true] at h
    obtain ⟨hm, hrest⟩ := h
    obtain ⟨o, ho, holf, hogood⟩ := memberFeature_wf m hm
    obtain ⟨os, hos, hlf, hlen⟩ := ih hrest
    refine ⟨o :: os, ?_, ?_, ?_⟩
    · rw [List.mapM_cons, ho, hos]
      rfl
    · intro f hf
      cases o with
      | none =>
        simp only [List.filterMap_cons, id] at hf
        exact hlf f hf
      | some x =>
        simp only [List.filterMap_cons, id] at hf
        rcases List.mem_cons.1 hf with hh | hh
        · subst hh
          exact holf f rfl
        · exact hlf f hh
    · cases o with
      | none =>
        have hg : goodMember m = false := by simpa using hogood.symm
        simp [List.filterMap_cons, List.filter_cons, hg, hlen]
      | some x =>
        have hg : goodMember m = true := by simpa using hogood.symm
        simp [List.filterMap_cons, List.filter_cons, hg, hlen]

/-- C10 (amended): `element_to_geojson` always produces a
`FeatureCollection` of LineString features over the element dictionaries it
survives (`wfElement`: relation members are dicts carrying `type`, and every
geometry reached is a list of dicts with `lon`/`lat` keys) — but it is not
total over arbitrary element dictionaries (see the counterexample, where a
member without `type` raises `KeyError`). For a relation, exactly the
way-members carrying a geometry contribute a feature; for a way, a feature
is produced only when the element carries a geometry; for any other kind
the features list is empty. -/
theorem C10_geojson (element : JDict) (h : wfElement element = true) :
    ∃ feats, element_to_geojson element =
        .ok (.jobj [("type", .jstr "FeatureCollection"), ("features", .jarr feats)]) ∧
      (∀ f ∈ feats, isLineStringFeature f = true) ∧
      (∀ ms, isStr ((assocGet element "type").getD (.jstr "relation")) "relation" = true →
        assocGet element "members" = some (.jarr ms) →
        feats.length = (ms.filter goodMember).length) ∧
      (isStr ((assocGet element "type").getD (.jstr "relation")) "way" = true →
        assocGet element "geometry" = none → feats = []) ∧
      (isStr ((assocGet element "type").getD (.jstr "relation")) "relation" = false →
        isStr ((assocGet element "type").getD (.jstr "relation")) "way" = false →
        feats = []) := by
  simp only [wfElement] at h
  simp only [element_to_geojson]
  by_cases hrel : isStr ((assocGet element "type").getD (.jstr "relation")) "relation" = true
  · rw [if_pos hrel] at h ⊢
    cases hM : assocGet element "members" with
    | none =>
      refine ⟨[], rfl, by simp, ?_, fun _ _ => rfl, fun hc _ => absurd hrel (by simp [hc])⟩
      intro ms _ hms
      exact Option.noConfusion hms
    | some v =>
      cases v with
      | jarr ms =>
        have hms : ms.all wfMember = true := by
          simp only [hM] at h
          exact h
        obtain ⟨os, hos, hlf, hlen⟩ := mapM_memberFeature_wf ms hms
        refine ⟨os.filterMap id, ?_, hlf, ?_, ?_, fun hc _ => absurd hrel (by simp [hc])⟩
        · simp only [Option.getD_some, pyIter]
          rw [hos]
        · intro ms2 _ hms2
          rw [Option.some.injEq, JVal.jarr.injEq] at hms2
          subst hms2
          exact hlen
        · intro hw _
          exact absurd (isStr_unique _ _ _ hrel hw) (by decide)
      | jnull => simp [hM] at h
      | jbool b2 => simp [hM] at h
      | jint n => simp [hM] at h
      | jstr s => simp [hM] at h
      | jobj l => simp [hM] at h
  · rw [if_neg hrel] at h ⊢
    by_cases hway : isStr ((assocGet element "type").getD (.jstr "relation")) "way" = true
    · rw [if_pos hway] at h ⊢
      cases hG : assocGet element "geometry" with
      | none =>
        exact ⟨[], rfl, by simp, fun _ hr _ => absurd hr hrel, fun _ _ => rfl,
          fun _ hc => absurd hway (by simp [hc])⟩
      | some g =>
        have hwg : wfGeom g = true := by
          simp only [hG] at h
          exact h
        obtain ⟨coords, hcs, hall⟩ := geomCoords_wf g hwg
        refine ⟨[.jobj [("type", .jstr "Feature"), ("properties", .jobj []),
          ("geometry", lineStringGeom coords)]], ?_, ?_,
          fun _ hr _ => absurd hr hrel, ?_, fun _ hc => absurd hway (by simp [hc])⟩
        · simp only [Option.getD_some, Option.isSome_some, if_true]
          rw [hcs]
        · intro f hf
          rcases List.mem_singleton.1 hf with rfl
          simp only [isLineStringFeature, lineStringGeom]
          simp [assocGet, List.all_eq_true]
          exact hall
        · intro _ hc
          exact Option.noConfusion hc
    · rw [if_neg hway] at h ⊢
      exact ⟨[], rfl, by simp, fun _ hr _ => absurd hr hrel, fun hw _ => absurd hw hway,
        fun _ _ => rfl⟩

/-- Witness for `C10_geojson`: a relation with one way member carrying a
two-point geometry and one node member — one LineString feature results. -/
theorem C10_geojson_witness :
    ∃ feats, element_to_geojson
        [("type", .jstr "relation"), ("members", .jarr
          [.jobj [("type", .jstr "way"), ("role", .jstr "outer"), ("ref", .jint 1),
            ("geometry", .jarr [.jobj [("lon", .jint 1), ("lat", .jint 2)],
              .jobj [("lon", .jint 3), ("lat", .jint 4)]])],
           .jobj [("type", .jstr "node")]])] =
        .ok (.jobj [("type", .jstr "FeatureCollection"), ("features", .jarr feats)]) ∧
      (∀ f ∈ feats, isLineStringFeature f = true) ∧
      (∀ ms, isStr ((assocGet
          [("type", JVal.jstr "relation"), ("members", .jarr
            [.jobj [("type", .jstr "way"), ("role", .jstr "outer"), ("ref", .jint 1),
              ("geometry", .jarr [.jobj [("lon", .jint 1), ("lat", .jint 2)],
                .jobj [("lon", .jint 3), ("lat", .jint 4)]])],
             .jobj [("type", .jstr "node")]])] "type").getD (.jstr "relation")) "relation" = true →
        assocGet
          [("type", JVal.jstr "relation"), ("members", .jarr
            [.jobj [("type", .jstr "way"), ("role", .jstr "outer"), ("ref", .jint 1),
              ("geometry", .jarr [.jobj [("lon", .jint 1), ("lat", .jint 2)],
                .jobj [("lon", .jint 3), ("lat", .jint 4)]])],
             .jobj [("type", .jstr "node")]])] "members" = some (.jarr ms) →
        feats.length = (ms.filter goodMember).length) ∧
      (isStr ((assocGet
          [("type", JVal.jstr "relation"), ("members", .jarr
            [.jobj [("type", .jstr "way"), ("role", .jstr "outer"), ("ref", .jint 1),
              ("geometry", .jarr [.jobj [("lon", .jint 1), ("lat", .jint 2)],
                .jobj [("lon", .jint 3), ("lat", .jint 4)]])],
             .jobj [("type", .jstr "node")]])] "type").getD (.jstr "relation")) "way" = true →
        assocGet
          [("type", JVal.jstr "relation"), ("members", .jarr
            [.jobj [("type", .jstr "way"), ("role", .jstr "outer"), ("ref", .jint 1),
              ("geometry", .jarr [.jobj [("lon", .jint 1), ("lat", .jint 2)],
                .jobj [("lon", .jint 3), ("lat", .jint 4)]])],
             .jobj [("type", .jstr "node")]])] "geometry" = none → feats = []) ∧
      (isStr ((assocGet
          [("type", JVal.jstr "relation"), ("members", .jarr
            [.jobj [("type", .jstr "way"), ("role", .jstr "outer"), ("ref", .jint 1),
              ("geometry", .jarr [.jobj [("lon", .jint 1), ("lat", .jint 2)],
                .jobj [("lon", .jint 3), ("lat", .jint 4)]])],
             .jobj [("type", .jstr "node")]])] "type").getD (.jstr "relation")) "relation" = false →
        isStr ((assocGet
          [("type", JVal.jstr "relation"), ("members", .jarr
            [.jobj [("type", .jstr "way"), ("role", .jstr "outer"), ("ref", .jint 1),
              ("geometry", .jarr [.jobj [("lon", .jint 1), ("lat", .jint 2)],
                .jobj [("lon", .jint 3), ("lat", .jint 4)]])],
             .jobj [("type", .jstr "node")]])] "type").getD (.jstr "relation")) "way" = false →
        feats = []) :=
  C10_geojson
    [("type", .jstr "relation"), ("members", .jarr
      [.jobj [("type", .jstr "way"), ("role", .jstr "outer"), ("ref", .jint 1),
        ("geometry", .jarr [.jobj [("lon", .jint 1), ("lat", .jint 2)],
          .jobj [("lon", .jint 3), ("lat", .jint 4)]])],
       .jobj [("type", .jstr "node")]])]
    (by rfl)

end F1
